import Mathlib

/-!
Verification development for the ThemeForest-Ripper backend.

The Python sources (`backend/app/services/job_store.py`,
`backend/app/services/token_store.py`, `backend/app/services/rip_runner.py`,
`backend/app/api/routes/rips.py`) are shallowly embedded below: timestamps
(`datetime`) are modelled as natural numbers, the in-memory job dict and the
SQLite token table as association lists, and the random `uuid4` values as
explicit `fresh` parameters.  Filesystem reads (`Path.exists`, `stat().st_size`)
become an `Option Nat` size parameter.  Operations that can raise `KeyError`
return `Option`.
-/

set_option maxHeartbeats 1000000

namespace ThemeRipper

/-- Job lifecycle states, mirroring `JobStatus` in `backend/app/models/job.py`. -/
inductive JobStatus where
  | queued
  | running
  | succeeded
  | failed
  | cancelled
  deriving DecidableEq, Repr

/-- One log record, mirroring the `LogEntry` dataclass (timestamps as `Nat`). -/
structure LogEntry where
  cursor : Nat
  timestamp : Nat
  level : String
  message : String
  deriving DecidableEq, Repr

/-- The `Job` dataclass of `backend/app/models/job.py`; `artifact_path` is kept
as a plain string, datetimes as `Nat`. -/
structure Job where
  job_id : String
  theme_url : String
  session_id : String
  status : JobStatus
  created_at : Nat
  updated_at : Nat
  logs : List LogEntry := []
  next_cursor : Nat := 0
  artifact_path : Option String := none
  download_size : Option Nat := none
  error : Option String := none
  expires_at : Option Nat := none
  download_token : Option String := none
  cancel_requested : Bool := false
  deriving DecidableEq, Repr

/-- One row of the `download_tokens` SQLite table of
`backend/app/services/token_store.py`. -/
structure TokenRow where
  token : String
  job_id : String
  expires_at : Nat
  deriving DecidableEq, Repr

/-- Python dict lookup `d.get(k)`: the value at the first matching key. -/
def dictGet {β : Type} (l : List (String × β)) (k : String) : Option β :=
  match l with
  | [] => none
  | p :: rest => if p.1 = k then some p.2 else dictGet rest k

/-- Python dict assignment `d[k] = v`: replace in place if the key exists
(keeping insertion order), otherwise append. -/
def dictInsert {β : Type} (l : List (String × β)) (k : String) (v : β) :
    List (String × β) :=
  if (dictGet l k).isSome then
    l.map (fun p => if p.1 = k then (p.1, v) else p)
  else
    l ++ [(k, v)]

/-- Update the value stored at key `k` (mutation of a looked-up dict value). -/
def dictUpdate {β : Type} (l : List (String × β)) (k : String) (f : β → β) :
    List (String × β) :=
  l.map (fun p => if p.1 = k then (p.1, f p.2) else p)

namespace TokenStore

/-- `TokenStore._get_valid_token`: fetch the job's row; keep it when its stored
expiry is ≥ now, otherwise delete the job's rows and report no valid token.
Returns the possibly-updated table alongside the result. -/
def get_valid_token (rows : List TokenRow) (job_id : String) (now : Nat) :
    Option String × List TokenRow :=
  match rows.find? (fun r => decide (r.job_id = job_id)) with
  | none => (none, rows)
  | some row =>
    if now ≤ row.expires_at then (some row.token, rows)
    else (none, rows.filter (fun r => decide (r.job_id ≠ job_id)))

/-- `TokenStore.issue_token`: return an existing valid token for the job or
insert the freshly minted one (`fresh` stands for `uuid4().hex`). -/
def issue_token (rows : List TokenRow) (job_id : String) (expires_at now : Nat)
    (fresh : String) : String × List TokenRow :=
  match get_valid_token rows job_id now with
  | (some t, rows') => (t, rows')
  | (none, rows') => (fresh, rows' ++ [⟨fresh, job_id, expires_at⟩])

/-- `TokenStore.resolve`: look the token up; if present but expired, delete it
and report absent (lazy expiry). -/
def resolve (rows : List TokenRow) (token : String) (now : Nat) :
    Option (String × Nat) × List TokenRow :=
  match rows.find? (fun r => decide (r.token = token)) with
  | none => (none, rows)
  | some row =>
    if row.expires_at < now then (none, rows.filter (fun r => decide (r.token ≠ token)))
    else (some (row.job_id, row.expires_at), rows)

/-- `TokenStore.delete_token`. -/
def delete_token (rows : List TokenRow) (token : String) : List TokenRow :=
  rows.filter (fun r => decide (r.token ≠ token))

/-- `TokenStore.delete_for_job`. -/
def delete_for_job (rows : List TokenRow) (job_id : String) : List TokenRow :=
  rows.filter (fun r => decide (r.job_id ≠ job_id))

end TokenStore

/-- Python slice `l[-k:]` (note `l[-0:]` is the whole list). -/
def pyTailSlice {α : Type} (l : List α) (k : Nat) : List α :=
  if k = 0 then l else l.drop (l.length - k)

/-- Membership of {QUEUED, RUNNING}, used by `active_count` and
`active_job_for_session`. -/
def isActive (j : Job) : Bool :=
  match j.status with
  | .queued => true
  | .running => true
  | _ => false

/-- The per-job body of `JobStore.append_log`: stamp the next cursor, append,
bump the counter, refresh `updated_at`, and trim with `logs[-limit:]` once over
the cap. -/
def append_log_job (limit : Nat) (job : Job) (now : Nat) (level message : String) :
    Job × LogEntry :=
  let entry : LogEntry :=
    { cursor := job.next_cursor, timestamp := now, level := level, message := message }
  let logs := job.logs ++ [entry]
  let logs := if limit < logs.length then pyTailSlice logs limit else logs
  ({ job with logs := logs, next_cursor := job.next_cursor + 1, updated_at := now }, entry)

/-- The per-job body of `JobStore.get_logs_since`: filter retained entries with
cursor ≥ since and compute `has_more` exactly as the source does, including the
`entries[-1].cursor < job.next_cursor - 1` disjunct (evaluated over `Int`, as
Python's unbounded integers). -/
def get_logs_since_job (job : Job) (since : Nat) : List LogEntry × Nat × Bool :=
  let entries := job.logs.filter (fun l => decide (since ≤ l.cursor))
  let truncated :=
    match entries.head? with
    | none => false
    | some e => decide (since < e.cursor)
  let tail_low :=
    match entries.getLast? with
    | none => false
    | some e => decide ((e.cursor : Int) < (job.next_cursor : Int) - 1)
  (entries, job.next_cursor, truncated || tail_low)

/-- In-memory store state: the `_jobs` dict, the `_cancel_events` dict (an
`Event` modelled as its flag), the token table shared with the `TokenStore`,
and the two configuration fields of `JobStore.__init__`. -/
structure StoreState where
  jobs : List (String × Job)
  cancel_events : List (String × Bool)
  tokens : List TokenRow
  log_limit : Nat
  ttl_seconds : Nat
  deriving DecidableEq, Repr

/-- `JobStore.create` (the fresh `uuid4` id is the `job_id` parameter). -/
def StoreState.create (st : StoreState) (theme_url session_id job_id : String)
    (now : Nat) : StoreState × Job :=
  let job : Job :=
    { job_id := job_id, theme_url := theme_url, session_id := session_id,
      status := .queued, created_at := now, updated_at := now }
  ({ st with jobs := dictInsert st.jobs job_id job,
             cancel_events := dictInsert st.cancel_events job_id false }, job)

/-- `JobStore.snapshot` (deep copies are value copies in the embedding). -/
@[reducible] def StoreState.snapshot (st : StoreState) (job_id : String) : Option Job :=
  dictGet st.jobs job_id

/-- `JobStore.mark_running`; `none` models the `KeyError` of `_get`. -/
def StoreState.mark_running (st : StoreState) (job_id : String) (now : Nat) :
    Option StoreState :=
  match dictGet st.jobs job_id with
  | none => none
  | some _ =>
    some { st with jobs := dictUpdate st.jobs job_id (fun j =>
      { j with status := .running, updated_at := now }) }

/-- `JobStore.mark_failed`: record the error, refresh timestamps and expiry,
and issue a download token for the job (the source assigns
`job.download_token = self._tokens.issue_token(...)` after first clearing it). -/
def StoreState.mark_failed (st : StoreState) (job_id error : String) (now : Nat)
    (fresh : String) : Option StoreState :=
  match dictGet st.jobs job_id with
  | none => none
  | some _ =>
    let expires := now + st.ttl_seconds
    let tok_rows := TokenStore.issue_token st.tokens job_id expires now fresh
    some { st with
      tokens := tok_rows.2,
      jobs := dictUpdate st.jobs job_id (fun j =>
        { j with status := .failed, error := some error, updated_at := now,
                 expires_at := some expires, download_token := some tok_rows.1,
                 cancel_requested := false, download_size := none }) }

/-- `JobStore.mark_succeeded`: `size` is `artifact_path.stat().st_size` when the
file exists and `none` otherwise; an existing file below the 100 KiB floor
demotes the job via `mark_failed`, anything else records success, expiry and a
freshly issued token. -/
def StoreState.mark_succeeded (st : StoreState) (job_id artifact_path : String)
    (size : Option Nat) (now : Nat) (fresh : String) : Option StoreState :=
  let succeed : Option StoreState :=
    match dictGet st.jobs job_id with
    | none => none
    | some _ =>
      let expires := now + st.ttl_seconds
      let tok_rows := TokenStore.issue_token st.tokens job_id expires now fresh
      some { st with
        tokens := tok_rows.2,
        jobs := dictUpdate st.jobs job_id (fun j =>
          { j with status := .succeeded, updated_at := now,
                   artifact_path := some artifact_path, download_size := size,
                   expires_at := some expires, download_token := some tok_rows.1 }) }
  match size with
  | some s =>
    if s < 100 * 1024 then
      st.mark_failed job_id "Final archive was too small; preview may not be rippable" now fresh
    else succeed
  | none => succeed

/-- `JobStore.mark_cancelled`: terminal cancel clears artifact, error, expiry
and token, then deletes the job's token rows. -/
def StoreState.mark_cancelled (st : StoreState) (job_id : String) (now : Nat) :
    Option StoreState :=
  match dictGet st.jobs job_id with
  | none => none
  | some _ =>
    some { st with
      jobs := dictUpdate st.jobs job_id (fun j =>
        { j with status := .cancelled, updated_at := now, cancel_requested := true,
                 artifact_path := none, error := none, expires_at := none,
                 download_token := none }),
      tokens := TokenStore.delete_for_job st.tokens job_id }

/-- `JobStore.append_log` at store level. -/
def StoreState.append_log (st : StoreState) (job_id : String) (now : Nat)
    (level message : String) : Option (StoreState × LogEntry) :=
  match dictGet st.jobs job_id with
  | none => none
  | some job =>
    let job_entry := append_log_job st.log_limit job now level message
    some ({ st with jobs := dictUpdate st.jobs job_id (fun _ => job_entry.1) },
          job_entry.2)

/-- `JobStore.get_logs_since` at store level. -/
def StoreState.get_logs_since (st : StoreState) (job_id : String) (since : Nat) :
    Option (List LogEntry × Nat × Bool) :=
  (dictGet st.jobs job_id).map (fun job => get_logs_since_job job since)

/-- `JobStore.active_count`: jobs in {QUEUED, RUNNING}. -/
def StoreState.active_count (st : StoreState) : Nat :=
  (st.jobs.filter (fun p => isActive p.2)).length

/-- `JobStore.active_job_for_session`: first active job owned by the session,
in insertion order. -/
def StoreState.active_job_for_session (st : StoreState) (session_id : String) :
    Option Job :=
  (st.jobs.find? (fun p => decide (p.2.session_id = session_id) && isActive p.2)).map (·.2)

/-- `JobStore.request_cancel`: when the job and its event exist, set the flag,
set the event, and collapse a still-QUEUED job straight to CANCELLED. -/
def StoreState.request_cancel (st : StoreState) (job_id : String) (now : Nat) :
    Bool × StoreState :=
  match dictGet st.jobs job_id with
  | none => (false, st)
  | some _ =>
    match dictGet st.cancel_events job_id with
    | none => (false, st)
    | some _ =>
      (true,
       { st with
         jobs := dictUpdate st.jobs job_id (fun j =>
           if j.status = .queued then
             { j with cancel_requested := true, status := .cancelled, updated_at := now }
           else
             { j with cancel_requested := true }),
         cancel_events := dictUpdate st.cancel_events job_id (fun _ => true) })

/-- `JobStore.is_cancelled`: the event's flag, `false` when absent. -/
def StoreState.is_cancelled (st : StoreState) (job_id : String) : Bool :=
  (dictGet st.cancel_events job_id).getD false

/-- `JobStore.remove`: drop the job, its event and its token rows. -/
def StoreState.remove (st : StoreState) (job_id : String) : StoreState :=
  { st with
    jobs := st.jobs.filter (fun p => decide (p.1 ≠ job_id)),
    cancel_events := st.cancel_events.filter (fun p => decide (p.1 ≠ job_id)),
    tokens := TokenStore.delete_for_job st.tokens job_id }

/-! ### Runner: wget output classification and the mirroring stage -/

/-- Python `str.strip()` restricted to ASCII whitespace, which is all wget
emits; computed over the character list so the kernel can evaluate it. -/
def pyStrip (s : String) : String :=
  ⟨((s.data.dropWhile Char.isWhitespace).reverse.dropWhile Char.isWhitespace).reverse⟩

/-- Python `str.upper()` restricted to ASCII case mapping. -/
def pyUpper (s : String) : String := ⟨s.data.map Char.toUpper⟩

/-- Python `str.lower()` restricted to ASCII case mapping. -/
def pyLower (s : String) : String := ⟨s.data.map Char.toLower⟩

/-- Python `s.startswith(pre)`, over the character lists. -/
def pyStartsWith (s pre : String) : Bool := pre.data.isPrefixOf s.data

/-- Fuelled worker for `pySplitOn`; every step consumes at least one
character, so `length + 1` fuel always suffices. -/
def splitOnFuel (sep : List Char) : Nat → List Char → List Char → List (List Char)
  | _, [], acc => [acc.reverse]
  | 0, l, acc => [acc.reverse ++ l]
  | fuel + 1, c :: rest, acc =>
    if sep ≠ [] ∧ sep.isPrefixOf (c :: rest) then
      acc.reverse :: splitOnFuel sep fuel (List.drop (sep.length - 1) rest) []
    else splitOnFuel sep fuel rest (c :: acc)

/-- Python `s.split(sep)` for nonempty `sep`: split at each leftmost
non-overlapping occurrence. -/
def pySplitOn (s sep : String) : List String :=
  (splitOnFuel sep.data (s.data.length + 1) s.data []).map List.asString

/-- Join with a separator (Python `sep.join`). -/
def intercalateStr (sep : String) : List String → String
  | [] => ""
  | [x] => x
  | x :: xs => x ++ sep ++ intercalateStr sep xs

/-- Python `s.split(sep, maxsplit)` for nonempty `sep`: the first `maxsplit`
leftmost separator occurrences split, the rest stays joined. -/
def pySplit (s sep : String) (maxsplit : Nat) : List String :=
  let ps := pySplitOn s sep
  if ps.length ≤ maxsplit + 1 then ps
  else ps.take maxsplit ++ [intercalateStr sep (ps.drop maxsplit)]

/-- Python `sub in s` for nonempty `sub`. -/
def pyContains (s sub : String) : Bool :=
  1 < (pySplitOn s sub).length

/-- The part of `s` before the first occurrence of `sep`. -/
def cutAt (s sep : String) : String :=
  ((pySplitOn s sep).headD s)

/-- `RipRunner._resource_label`: `urlparse(url)` is modelled for the absolute
URLs wget prints (netloc = authority after `://` up to the first `/`, path cut
before query/fragment); `Path(path).name` is the last nonempty `/`-segment
(`.`/`..` segments are not normalised). Falls back to the netloc, then the raw
URL. -/
def resource_label (url : String) : String :=
  let netloc_path : String × String :=
    match pySplitOn url "://" with
    | [] => ("", url)
    | [_] => ("", cutAt (cutAt url "#") "?")
    | _ :: rest =>
      let after := cutAt (cutAt (intercalateStr "://" rest) "#") "?"
      match pySplitOn after "/" with
      | [] => (after, "")
      | h :: t => (h, if t.isEmpty then "" else "/" ++ intercalateStr "/" t)
  let name := ((pySplitOn netloc_path.2 "/").reverse.find? (fun seg => seg ≠ "")).getD ""
  if name ≠ "" then name
  else if netloc_path.1 ≠ "" then netloc_path.1
  else url

/-- `RipRunner._simplify_wget_line`: classify one raw output line given the
remembered last-seen resource URL, producing the emitted log entries (level,
message) and the new remembered URL. -/
def simplify_wget_line (raw_line : String) (last_url : Option String) :
    List (String × String) × Option String :=
  let line := pyStrip raw_line
  if line = "" then ([], last_url)
  else if pyStartsWith (pyUpper line) "ERROR" then ([("error", line)], last_url)
  else if pyStartsWith line "--" then
    let parts := pySplit line "--" 2
    if 3 ≤ parts.length then
      let url := pyStrip (parts.getD 2 "")
      if url ≠ "" then ([("info", "Fetching " ++ resource_label url)], some url)
      else ([], last_url)
    else ([], last_url)
  else if pyStartsWith (pyLower line) "saving to:" then
    match last_url with
    | some u => ([("info", "Saved " ++ resource_label u)], last_url)
    | none => ([], last_url)
  else if pyContains (pyLower line) "not retrieving" then ([("warn", line)], last_url)
  else ([], last_url)

/-- The `for line in process.stdout` loop body of `RipRunner._mirror_site`
folded over the whole transcript (cancellation not requested): collects every
log entry emitted, threading the remembered URL. -/
def simplify_lines (lines : List String) (last_url : Option String) :
    List (String × String) :=
  match lines with
  | [] => []
  | l :: rest =>
    let step := simplify_wget_line l last_url
    step.1 ++ simplify_lines rest step.2

/-- Outcome of a runner stage: either the `JobCancelled` exception or a
`RuntimeError` carrying its message. -/
inductive StageError where
  | jobCancelled
  | runtimeError (msg : String)
  deriving DecidableEq, Repr

/-- `RipRunner._mirror_site`, with the subprocess abstracted to its transcript
`lines` and exit code `retcode`, the `wget` binary's presence to `tool_present`
(absent = `Popen` raises `FileNotFoundError`), and the store's cancellation
flag to the constant `cancelled` (polled before each line and after the loop).
Returns every log entry appended during the stage together with the stage
outcome. -/
def mirror_site (dest_dir : String) (tool_present cancelled : Bool)
    (lines : List String) (retcode : Int) :
    List (String × String) × Except StageError Unit :=
  let running : String × String :=
    ("info", "Running wget -e robots=off -P " ++ dest_dir ++ " ...")
  if tool_present = false then
    ([running], .error (.runtimeError "wget is required but not installed or not in PATH"))
  else if cancelled then
    ([running], .error .jobCancelled)
  else
    let logs := running :: simplify_lines lines none
    if retcode = 8 then
      (logs ++ [("warn", "wget completed with HTTP errors (some assets may be missing)")],
       .ok ())
    else if retcode ≠ 0 then
      (logs, .error (.runtimeError ("wget exited with code " ++ toString retcode)))
    else
      (logs, .ok ())

/-- The `except JobCancelled` handler of `RipRunner.run` (reached whenever a
stage checkpoint observes the cancellation flag): append the final log entry,
mark the job cancelled, then remove it from the store. -/
def runner_cancel_handler (st : StoreState) (job_id : String) (now : Nat) :
    Option StoreState :=
  (st.append_log job_id now "info" "Job cancelled by user").bind (fun st_entry =>
    (st_entry.1.mark_cancelled job_id now).map (fun st2 => st2.remove job_id))

/-! ### Route layer: job-creation admission -/

/-- The two rejection kinds of `create_rip_job` in
`backend/app/api/routes/rips.py`: HTTP 429 `TOO_MANY_JOBS` and HTTP 409
`ACTIVE_JOB_EXISTS`. -/
inductive CreateError where
  | tooManyJobs
  | activeJobExists
  deriving DecidableEq, Repr

/-- The admission logic of the `create_rip_job` route: capacity gate first,
then per-session exclusivity, then store creation plus the "Job queued" log
entry (the executor dispatch and response serialisation are outside the
store). The outer `Option` models an uncaught exception. -/
def create_rip_job (st : StoreState) (queue_limit : Nat)
    (theme_url session_id job_id : String) (now : Nat) :
    Option (Except CreateError (StoreState × String)) :=
  if queue_limit ≤ st.active_count then
    some (.error .tooManyJobs)
  else if (st.active_job_for_session session_id).isSome then
    some (.error .activeJobExists)
  else
    let st1 := (st.create theme_url session_id job_id now).1
    (st1.append_log job_id now "info" "Job queued").map
      (fun st_entry => .ok (st_entry.1, job_id))

/-! ### Association-list lemmas -/

theorem dictGet_dictUpdate {β : Type} (l : List (String × β)) (k : String) (f : β → β) :
    dictGet (dictUpdate l k f) k = (dictGet l k).map f := by
  induction l with
  | nil => simp [dictGet, dictUpdate]
  | cons p rest ih =>
    by_cases h : p.1 = k
    · simp [dictUpdate, dictGet, h]
    · simpa [dictUpdate, dictGet, h] using ih

theorem dictGet_dictUpdate_ne {β : Type} (l : List (String × β)) (k k' : String)
    (f : β → β) (h : k' ≠ k) :
    dictGet (dictUpdate l k f) k' = dictGet l k' := by
  induction l with
  | nil => simp [dictGet, dictUpdate]
  | cons p rest ih =>
    by_cases hp : p.1 = k
    · simpa [dictUpdate, dictGet, hp, Ne.symm h] using ih
    · by_cases hp' : p.1 = k'
      · simp [dictUpdate, dictGet, hp, hp', h]
      · simpa [dictUpdate, dictGet, hp, hp'] using ih

theorem dictGet_append_right {β : Type} (l : List (String × β)) (k : String) (v : β)
    (h : dictGet l k = none) : dictGet (l ++ [(k, v)]) k = some v := by
  induction l with
  | nil => simp [dictGet]
  | cons p rest ih =>
    by_cases hp : p.1 = k
    · simp [dictGet, hp] at h
    · simp [dictGet, hp] at h ⊢
      exact ih h

theorem dictGet_map_overwrite {β : Type} (l : List (String × β)) (k : String) (v : β)
    (h : (dictGet l k).isSome) :
    dictGet (l.map (fun p => if p.1 = k then (p.1, v) else p)) k = some v := by
  induction l with
  | nil => simp [dictGet] at h
  | cons p rest ih =>
    by_cases hp : p.1 = k
    · simp [dictGet, hp]
    · simp [dictGet, hp] at h ⊢
      exact ih h

theorem dictGet_dictInsert {β : Type} (l : List (String × β)) (k : String) (v : β) :
    dictGet (dictInsert l k v) k = some v := by
  by_cases h : (dictGet l k).isSome
  · unfold dictInsert
    rw [if_pos h]
    exact dictGet_map_overwrite l k v h
  · unfold dictInsert
    rw [if_neg h]
    exact dictGet_append_right l k v (Option.not_isSome_iff_eq_none.mp h)

theorem dictGet_update_of_get {β : Type} (l : List (String × β)) (k : String) (b : β)
    (h : dictGet l k = some b) (f : β → β) :
    dictGet (dictUpdate l k f) k = some (f b) := by
  rw [dictGet_dictUpdate, h]
  rfl

/-! ### C1: artifact path / download token across terminal transitions -/

/-- Store used to refute C1: a single queued job `"j"` owned by session `"s"`. -/
def exStC1 : StoreState :=
  { jobs := [("j", { job_id := "j", theme_url := "u", session_id := "s",
                     status := .queued, created_at := 0, updated_at := 0 })],
    cancel_events := [("j", false)],
    tokens := [],
    log_limit := 1000,
    ttl_seconds := 3600 }

/-- C1 counterexample: `mark_failed` does not leave the job without a download
token — on a concrete store, failing job `"j"` stores the freshly issued token
`"tok"` on the job, refuting "a transition to Failed (via markFailed) leaves
the job with no download token". -/
theorem C1_counterexample :
    ((exStC1.mark_failed "j" "boom" 5 "tok").bind
        (fun st => st.snapshot "j")).map Job.download_token = some (some "tok") ∧
    some (some "tok") ≠ some (Option.none (α := String)) := by
  constructor
  · rfl
  · decide

/-- C1 (amended): `mark_failed` records status Failed, clears the stored
artifact size and leaves the artifact path untouched, but *does* store a
freshly issued download token; `mark_cancelled` clears both the artifact path
and the token and purges the job's token rows; `mark_running` changes neither
artifact path nor token, so among the transitions only `mark_succeeded` ever
sets the artifact path. -/
theorem C1_amended (st : StoreState) (job_id err : String) (now : Nat)
    (fresh : String) (job : Job) (hj : dictGet st.jobs job_id = some job) :
    (∃ st', st.mark_failed job_id err now fresh = some st' ∧
      ∃ j', st'.snapshot job_id = some j' ∧
        j'.status = .failed ∧ j'.download_token.isSome ∧
        j'.download_size = none ∧ j'.artifact_path = job.artifact_path) ∧
    (∃ st', st.mark_cancelled job_id now = some st' ∧
      ∃ j', st'.snapshot job_id = some j' ∧
        j'.status = .cancelled ∧ j'.artifact_path = none ∧
        j'.download_token = none ∧ ∀ r ∈ st'.tokens, r.job_id ≠ job_id) ∧
    (∃ st', st.mark_running job_id now = some st' ∧
      ∃ j', st'.snapshot job_id = some j' ∧
        j'.artifact_path = job.artifact_path ∧
        j'.download_token = job.download_token) := by
  refine ⟨?_, ?_, ?_⟩
  · unfold StoreState.mark_failed
    rw [hj]
    have hsnap := dictGet_update_of_get st.jobs job_id job hj (fun j =>
      { j with
          status := .failed, error := some err, updated_at := now,
          expires_at := some (now + st.ttl_seconds),
          download_token := some (TokenStore.issue_token st.tokens job_id
            (now + st.ttl_seconds) now fresh).1,
          cancel_requested := false, download_size := none })
    exact ⟨_, rfl, _, hsnap, rfl, rfl, rfl, rfl⟩
  · unfold StoreState.mark_cancelled
    rw [hj]
    have hsnap := dictGet_update_of_get st.jobs job_id job hj (fun j =>
      { j with
          status := .cancelled, updated_at := now,
          cancel_requested := true, artifact_path := none, error := none,
          expires_at := none, download_token := none })
    refine ⟨_, rfl, _, hsnap, rfl, rfl, rfl, ?_⟩
    intro r hr
    exact of_decide_eq_true (List.mem_filter.mp hr).2
  · unfold StoreState.mark_running
    rw [hj]
    have hsnap := dictGet_update_of_get st.jobs job_id job hj
      (fun j => { j with status := .running, updated_at := now })
    exact ⟨_, rfl, _, hsnap, rfl, rfl⟩

/-! ### C3 / C10: the 100 KiB floor in `mark_succeeded` -/

/-- C3: when the final archive exists with a size below the 100 KiB floor,
`mark_succeeded` does not record success but demotes the job to Failed via
`mark_failed`, storing the descriptive error message. -/
theorem C3_small_archive_marks_failed (st : StoreState) (job_id path : String)
    (s now : Nat) (fresh : String) (job : Job)
    (hj : dictGet st.jobs job_id = some job) (hs : s < 100 * 1024) :
    st.mark_succeeded job_id path (some s) now fresh =
      st.mark_failed job_id
        "Final archive was too small; preview may not be rippable" now fresh ∧
    ∃ st', st.mark_succeeded job_id path (some s) now fresh = some st' ∧
      ∃ j', st'.snapshot job_id = some j' ∧
        j'.status = .failed ∧ j'.status ≠ .succeeded ∧
        j'.error = some "Final archive was too small; preview may not be rippable" := by
  have hroute : st.mark_succeeded job_id path (some s) now fresh =
      st.mark_failed job_id
        "Final archive was too small; preview may not be rippable" now fresh := by
    unfold StoreState.mark_succeeded
    dsimp only
    rw [if_pos hs]
  refine ⟨hroute, ?_⟩
  rw [hroute]
  unfold StoreState.mark_failed
  rw [hj]
  have hsnap := dictGet_update_of_get st.jobs job_id job hj (fun j =>
    { j with
        status := .failed,
        error := some "Final archive was too small; preview may not be rippable",
        updated_at := now, expires_at := some (now + st.ttl_seconds),
        download_token := some (TokenStore.issue_token st.tokens job_id
          (now + st.ttl_seconds) now fresh).1,
        cancel_requested := false, download_size := none })
  exact ⟨_, rfl, _, hsnap, rfl, fun h => JobStatus.noConfusion h, rfl⟩

/-- Witness for C3 on a concrete store: a 1-byte archive demotes the job. -/
theorem C3_small_archive_marks_failed_witness :
    ∃ j', ((exStC1.mark_succeeded "j" "/a/j.zip" (some 1) 5 "tok").bind
        (fun st => st.snapshot "j")) = some j' ∧ j'.status = .failed := by
  obtain ⟨-, st', hst, j', hj', hstatus, -, -⟩ :=
    C3_small_archive_marks_failed exStC1 "j" "/a/j.zip" 1 5 "tok"
      { job_id := "j", theme_url := "u", session_id := "s",
        status := .queued, created_at := 0, updated_at := 0 } rfl (by decide)
  exact ⟨j', by rw [hst]; exact hj', hstatus⟩

/-- C10: when the artifact file does not exist (`size = none`), the floor check
is skipped and the job is marked Succeeded with no download size, an expiry of
`now + ttl`, an issued download token, and the artifact path recorded. -/
theorem C10_missing_artifact_succeeds (st : StoreState) (job_id path : String)
    (now : Nat) (fresh : String) (job : Job)
    (hj : dictGet st.jobs job_id = some job) :
    ∃ st', st.mark_succeeded job_id path none now fresh = some st' ∧
      ∃ j', st'.snapshot job_id = some j' ∧
        j'.status = .succeeded ∧ j'.download_size = none ∧
        j'.expires_at = some (now + st.ttl_seconds) ∧
        j'.download_token.isSome ∧ j'.artifact_path = some path := by
  unfold StoreState.mark_succeeded
  rw [hj]
  have hsnap := dictGet_update_of_get st.jobs job_id job hj (fun j =>
    { j with
        status := .succeeded, updated_at := now, artifact_path := some path,
        download_size := none, expires_at := some (now + st.ttl_seconds),
        download_token := some (TokenStore.issue_token st.tokens job_id
          (now + st.ttl_seconds) now fresh).1 })
  exact ⟨_, rfl, _, hsnap, rfl, rfl, rfl, rfl, rfl⟩

/-- Witness for C10 on a concrete store. -/
theorem C10_missing_artifact_succeeds_witness :
    ∃ j', ((exStC1.mark_succeeded "j" "/a/j.zip" none 5 "tok").bind
        (fun st => st.snapshot "j")) = some j' ∧
      j'.status = .succeeded ∧ j'.download_size = none := by
  obtain ⟨st', hst, j', hj', hstatus, hsize, -, -, -⟩ :=
    C10_missing_artifact_succeeds exStC1 "j" "/a/j.zip" 5 "tok"
      { job_id := "j", theme_url := "u", session_id := "s",
        status := .queued, created_at := 0, updated_at := 0 } rfl
  exact ⟨j', by rw [hst]; exact hj', hstatus, hsize⟩

/-- Witness for C1 (amended) on the concrete store `exStC1`. -/
theorem C1_amended_witness :
    ∃ j', ((exStC1.mark_failed "j" "boom" 5 "tok").bind
        (fun st => st.snapshot "j")) = some j' ∧ j'.download_token.isSome := by
  obtain ⟨⟨st', hst, j', hj', _, htok, _, _⟩, _, _⟩ :=
    C1_amended exStC1 "j" "boom" 5 "tok"
      { job_id := "j", theme_url := "u", session_id := "s",
        status := .queued, created_at := 0, updated_at := 0 } rfl
  exact ⟨j', by rw [hst]; exact hj', htok⟩

/-! ### C5: cursor assignment across appends -/

/-- Iterate `append_log_job` over a list of (timestamp, level, message)
triples, collecting the entries each call returns. -/
def append_many (limit : Nat) (job : Job) (items : List (Nat × String × String)) :
    Job × List LogEntry :=
  match items with
  | [] => (job, [])
  | it :: rest =>
    let je := append_log_job limit job it.1 it.2.1 it.2.2
    let tail_result := append_many limit je.1 rest
    (tail_result.1, je.2 :: tail_result.2)

theorem append_many_cursors (limit : Nat) (items : List (Nat × String × String)) :
    ∀ job : Job,
      (append_many limit job items).2.map LogEntry.cursor =
        List.range' job.next_cursor items.length := by
  induction items with
  | nil =>
    intro job
    simp [append_many]
  | cons it rest ih =>
    intro job
    simp only [append_many, List.map_cons, List.length_cons, List.range'_succ]
    refine congrArg₂ _ rfl ?_
    have h := ih (append_log_job limit job it.1 it.2.1 it.2.2).1
    exact h.trans rfl

/-- C5: starting from a fresh job (`next_cursor = 0`), any sequence of
`append_log` calls is assigned the cursors `0, 1, 2, ...` in order — strictly
increasing, never reused — for every retention cap `limit`, i.e. trimming never
recycles a cursor. -/
theorem C5_append_cursors (limit : Nat) (items : List (Nat × String × String))
    (job : Job) (h0 : job.next_cursor = 0) :
    (append_many limit job items).2.map LogEntry.cursor = List.range items.length ∧
    ((append_many limit job items).2.map LogEntry.cursor).Pairwise (· < ·) := by
  have h := append_many_cursors limit items job
  rw [h0] at h
  rw [h, List.range_eq_range']
  exact ⟨rfl, List.pairwise_lt_range' 0 items.length⟩

/-- A fresh queued job used by several witnesses. -/
def exJobFresh : Job :=
  { job_id := "j", theme_url := "u", session_id := "s", status := .queued,
    created_at := 0, updated_at := 0 }

/-- Witness for C5: three appends on a fresh job with cap 1 (so trimming
fires) still yield cursors `[0, 1, 2]`. -/
theorem C5_append_cursors_witness :
    exJobFresh.next_cursor = 0 ∧
    (append_many 1 exJobFresh
        [(0, "info", "a"), (1, "info", "b"), (2, "info", "c")]).2.map
      LogEntry.cursor = List.range 3 :=
  ⟨rfl, (C5_append_cursors 1 [(0, "info", "a"), (1, "info", "b"), (2, "info", "c")]
    exJobFresh rfl).1⟩

/-! ### C2: `get_logs_since` and the unreachable `has_more` disjunct -/

/-- Reachability invariant: the retained log is a contiguous block of cursors
ending at `next_cursor - 1`. It holds for a fresh job and is preserved by
`append_log_job` (`contiguous_append_log`). -/
def ContiguousLogs (job : Job) : Prop :=
  job.logs.length ≤ job.next_cursor ∧
  job.logs.map LogEntry.cursor =
    List.range' (job.next_cursor - job.logs.length) job.logs.length

theorem drop_range' (s n d : Nat) :
    (List.range' s n).drop d = List.range' (s + d) (n - d) := by
  induction n generalizing s d with
  | zero => simp
  | succ n ih =>
    cases d with
    | zero => simp
    | succ d =>
      rw [List.range'_succ, List.drop_succ_cons, ih]
      have h1 : s + 1 + d = s + (d + 1) := by omega
      have h2 : n - d = n + 1 - (d + 1) := by omega
      rw [h1, h2]

/-- A fresh job satisfies the invariant. -/
theorem contiguous_fresh (job : Job) (hlogs : job.logs = [])
    (hnc : job.next_cursor = 0) : ContiguousLogs job := by
  constructor
  · simp [hlogs, hnc]
  · simp [hlogs]

/-- Core of the preservation argument for `append_log_job`, stated over the
appended-then-trimmed list. -/
theorem contiguous_core (nc limit : Nat) (l : List LogEntry) (e : LogEntry)
    (hlen : l.length ≤ nc)
    (hmap : l.map LogEntry.cursor = List.range' (nc - l.length) l.length)
    (he : e.cursor = nc) :
    ∀ l2, l2 = (if limit < (l ++ [e]).length then pyTailSlice (l ++ [e]) limit
        else l ++ [e]) →
      l2.length ≤ nc + 1 ∧
      l2.map LogEntry.cursor = List.range' (nc + 1 - l2.length) l2.length := by
  have hconcat : (l ++ [e]).map LogEntry.cursor =
      List.range' (nc - l.length) (l.length + 1) := by
    rw [List.map_append, List.map_cons, List.map_nil, hmap, he,
      List.range'_1_concat]
    have h1 : nc - l.length + l.length = nc := by omega
    rw [h1]
  have hlenconcat : (l ++ [e]).length = l.length + 1 := by simp
  intro l2 hl2
  by_cases hover : limit < (l ++ [e]).length
  · rw [if_pos hover] at hl2
    by_cases hz : limit = 0
    · rw [pyTailSlice, if_pos hz] at hl2
      subst hl2
      refine ⟨by rw [hlenconcat]; omega, ?_⟩
      rw [hconcat, hlenconcat, List.range'_inj]
      omega
    · rw [pyTailSlice, if_neg hz] at hl2
      subst hl2
      rw [hlenconcat] at hover
      constructor
      · rw [List.length_drop, hlenconcat]
        omega
      · rw [List.map_drop, hconcat, drop_range', List.length_drop, hlenconcat,
          List.range'_inj]
        omega
  · rw [if_neg hover] at hl2
    subst hl2
    rw [hlenconcat] at hover
    refine ⟨by rw [hlenconcat]; omega, ?_⟩
    rw [hconcat, hlenconcat, List.range'_inj]
    omega

/-- `append_log_job` preserves the invariant, for every cap. -/
theorem contiguous_append_log (limit : Nat) (job : Job) (now : Nat)
    (level message : String) (h : ContiguousLogs job) :
    ContiguousLogs (append_log_job limit job now level message).1 := by
  obtain ⟨hlen, hmap⟩ := h
  exact contiguous_core job.next_cursor limit job.logs
    (LogEntry.mk job.next_cursor now level message) hlen hmap rfl _ rfl

theorem filter_cursor_ge (l : List LogEntry) (k since : Nat)
    (h : l.map LogEntry.cursor = List.range' k l.length) :
    l.filter (fun e => decide (since ≤ e.cursor)) = l.drop (since - k) := by
  induction l generalizing k with
  | nil => simp
  | cons a tl ih =>
    simp only [List.length_cons, List.map_cons, List.range'_succ,
      List.cons.injEq] at h
    obtain ⟨ha, htl⟩ := h
    by_cases hsk : since ≤ k
    · have hz : since - k = 0 := by omega
      rw [hz, List.drop_zero, List.filter_cons_of_pos (by simp [ha, hsk])]
      refine congrArg₂ _ rfl ?_
      rw [List.filter_eq_self]
      intro e he
      have hmem : e.cursor ∈ List.range' (k + 1) tl.length := by
        rw [← htl]
        exact List.mem_map_of_mem _ he
      have := (List.mem_range'_1.mp hmem).1
      simp only [decide_eq_true_eq]
      omega
    · have hpos : since - k = (since - (k + 1)) + 1 := by omega
      rw [List.filter_cons_of_neg (by simp [ha]; omega), ih (k + 1) htl, hpos,
        List.drop_succ_cons]

/-- The spec's trimming-based definition of `has_more`: true exactly when the
oldest returned entry's cursor exceeds the requested one. -/
def has_more_spec (job : Job) (since : Nat) : Bool :=
  match (job.logs.filter (fun l => decide (since ≤ l.cursor))).head? with
  | none => false
  | some e => decide (since < e.cursor)

/-- C2: on every reachable job state, `get_logs_since` returns exactly the
retained entries with cursor ≥ since together with `next_cursor`, and the
coded `has_more` — whose second disjunct compares the newest returned cursor
with `next_cursor - 1` — collapses to the trimming-based definition
`has_more_spec`, i.e. that disjunct is never true. -/
theorem C2_get_logs_since (job : Job) (since : Nat) (hinv : ContiguousLogs job) :
    get_logs_since_job job since =
      (job.logs.filter (fun l => decide (since ≤ l.cursor)), job.next_cursor,
        has_more_spec job since) := by
  obtain ⟨hlen, hmap⟩ := hinv
  have htail : (match (job.logs.filter
        (fun l => decide (since ≤ l.cursor))).getLast? with
      | none => false
      | some e => decide ((e.cursor : Int) < (job.next_cursor : Int) - 1)) = false := by
    cases hlast : (job.logs.filter (fun l => decide (since ≤ l.cursor))).getLast? with
    | none => rfl
    | some e =>
      have hdrop := filter_cursor_ge job.logs (job.next_cursor - job.logs.length)
        since hmap
      have hmaplast : (List.range' (job.next_cursor - job.logs.length +
            (since - (job.next_cursor - job.logs.length)))
            (job.logs.length - (since - (job.next_cursor - job.logs.length)))).getLast?
          = some e.cursor := by
        rw [← drop_range', ← hmap, ← List.map_drop, ← hdrop, List.getLast?_map,
          hlast]
        rfl
      rw [List.getLast?_range'] at hmaplast
      by_cases hzero : job.logs.length -
          (since - (job.next_cursor - job.logs.length)) = 0
      · rw [if_pos hzero] at hmaplast
        exact absurd hmaplast (by simp)
      · rw [if_neg hzero] at hmaplast
        have hcur := Option.some.inj hmaplast
        have hlt : ¬ ((e.cursor : Int) < (job.next_cursor : Int) - 1) := by
          omega
        simp [hlt]
  unfold get_logs_since_job has_more_spec
  dsimp only
  rw [htail, Bool.or_false]

/-- A trimmed job used by the C2 witness: cursors 3 and 4 retained out of 5
assigned. -/
def exJobC2 : Job :=
  { job_id := "j", theme_url := "u", session_id := "s", status := .running,
    created_at := 0, updated_at := 0,
    logs := [LogEntry.mk 3 1 "info" "a", LogEntry.mk 4 2 "info" "b"],
    next_cursor := 5 }

/-- Witness for C2: querying `exJobC2` from cursor 2 returns both retained
entries and reports `has_more` purely on the trimming rule. -/
theorem C2_get_logs_since_witness :
    ContiguousLogs exJobC2 ∧
    get_logs_since_job exJobC2 2 =
      ([LogEntry.mk 3 1 "info" "a", LogEntry.mk 4 2 "info" "b"], 5, true) := by
  have hinv : ContiguousLogs exJobC2 := ⟨by decide, by decide⟩
  refine ⟨hinv, ?_⟩
  rw [C2_get_logs_since exJobC2 2 hinv]
  rfl

/-! ### C4: token issuance idempotence and lazy expiry -/

/-- Rows surviving the delete-by-job never match that job. -/
theorem find?_job_filter (rows : List TokenRow) (job_id : String) :
    (rows.filter (fun r => decide (r.job_id ≠ job_id))).find?
      (fun r => decide (r.job_id = job_id)) = none := by
  rw [List.find?_eq_none]
  intro a ha
  have h := of_decide_eq_true (List.mem_filter.mp ha).2
  simp only [decide_eq_true_eq]
  exact h

/-- `resolve` reports absent for a token no row carries. -/
theorem resolve_of_not_mem (rows : List TokenRow) (t : String) (now : Nat)
    (h : ∀ r ∈ rows, r.token ≠ t) :
    TokenStore.resolve rows t now = (none, rows) := by
  have hfind : rows.find? (fun r => decide (r.token = t)) = none := by
    rw [List.find?_eq_none]
    intro a ha
    simp only [decide_eq_true_eq]
    exact h a ha
  unfold TokenStore.resolve
  rw [hfind]

/-- C4: with pairwise-distinct stored tokens and a genuinely fresh mint,
issuing for a job yields a token `t1` whose stored row has some expiry `e1`;
a second `issue` while `now2 ≤ e1` (the stored token unexpired) returns the
same `t1` and leaves the table unchanged; once `e1 < now2`, a further `issue`
deletes the expired entry and returns the fresh token `t2 ≠ t1`, after which
resolving the old token reports absent. -/
theorem C4_token_idempotent_expiry (rows : List TokenRow) (job_id : String)
    (exp1 now1 : Nat) (fresh1 t1 : String) (rows1 : List TokenRow)
    (hissue : TokenStore.issue_token rows job_id exp1 now1 fresh1 = (t1, rows1))
    (hnodup : (rows.map TokenRow.token).Nodup)
    (hfresh1 : fresh1 ∉ rows.map TokenRow.token) :
    ∃ e1, rows1.find? (fun r => decide (r.job_id = job_id)) =
        some ⟨t1, job_id, e1⟩ ∧
      (∀ exp2 now2 fresh2, now2 ≤ e1 →
        TokenStore.issue_token rows1 job_id exp2 now2 fresh2 = (t1, rows1)) ∧
      (∀ exp2 now2 fresh2 now3 t2 rows2,
        TokenStore.issue_token rows1 job_id exp2 now2 fresh2 = (t2, rows2) →
        e1 < now2 → fresh2 ∉ rows.map TokenRow.token → fresh2 ≠ fresh1 →
        t2 = fresh2 ∧ t2 ≠ t1 ∧ TokenStore.resolve rows2 t1 now3 = (none, rows2)) := by
  -- Characterise the first issuance: the job's row, plus where `t1` came from
  -- and that only rows of this job can carry `t1`.
  have hchar : ∃ e1, rows1.find? (fun r => decide (r.job_id = job_id)) =
        some ⟨t1, job_id, e1⟩ ∧
      (t1 ∈ rows.map TokenRow.token ∨ t1 = fresh1) ∧
      (∀ q ∈ rows1, q.token = t1 → q.job_id = job_id) ∧
      (∀ q ∈ rows1, q.token ∈ rows.map TokenRow.token ∨ q.token = fresh1) := by
    unfold TokenStore.issue_token TokenStore.get_valid_token at hissue
    cases hfind : rows.find? (fun r => decide (r.job_id = job_id)) with
    | none =>
      rw [hfind] at hissue
      dsimp only at hissue
      obtain ⟨ht1, hrows1⟩ := Prod.mk.injEq .. ▸ hissue
      subst ht1
      refine ⟨exp1, ?_, Or.inr rfl, ?_, ?_⟩
      · rw [← hrows1, List.find?_append, hfind]
        simp
      · intro q hq hqt
        rw [← hrows1] at hq
        rcases List.mem_append.mp hq with hq | hq
        · exact absurd (hqt ▸ List.mem_map_of_mem TokenRow.token hq) hfresh1
        · simp at hq
          rw [hq]
      · intro q hq
        rw [← hrows1] at hq
        rcases List.mem_append.mp hq with hq | hq
        · exact Or.inl (List.mem_map_of_mem TokenRow.token hq)
        · simp at hq
          subst hq
          exact Or.inr rfl
    | some r =>
      have hrjob : r.job_id = job_id := by
        have := List.find?_some hfind
        simpa using this
      have hrmem : r ∈ rows := List.mem_of_find?_eq_some hfind
      rw [hfind] at hissue
      dsimp only at hissue
      by_cases hvalid : now1 ≤ r.expires_at
      · rw [if_pos hvalid] at hissue
        obtain ⟨ht1, hrows1⟩ := Prod.mk.injEq .. ▸ hissue
        subst ht1
        refine ⟨r.expires_at, ?_, Or.inl (List.mem_map_of_mem TokenRow.token hrmem),
          ?_, ?_⟩
        · rw [← hrows1, hfind]
          congr 1
          cases r
          simp at hrjob
          rw [hrjob]
        · intro q hq hqt
          rw [← hrows1] at hq
          have := List.inj_on_of_nodup_map hnodup hq hrmem hqt
          rw [this, hrjob]
        · intro q hq
          rw [← hrows1] at hq
          exact Or.inl (List.mem_map_of_mem TokenRow.token hq)
      · rw [if_neg hvalid] at hissue
        obtain ⟨ht1, hrows1⟩ := Prod.mk.injEq .. ▸ hissue
        subst ht1
        refine ⟨exp1, ?_, Or.inr rfl, ?_, ?_⟩
        · rw [← hrows1, List.find?_append, find?_job_filter]
          simp
        · intro q hq hqt
          rw [← hrows1] at hq
          rcases List.mem_append.mp hq with hq | hq
          · have := (List.mem_filter.mp hq).1
            exact absurd (hqt ▸ List.mem_map_of_mem TokenRow.token this) hfresh1
          · simp at hq
            rw [hq]
        · intro q hq
          rw [← hrows1] at hq
          rcases List.mem_append.mp hq with hq | hq
          · exact Or.inl (List.mem_map_of_mem TokenRow.token (List.mem_filter.mp hq).1)
          · simp at hq
            subst hq
            exact Or.inr rfl
  obtain ⟨e1, hfind1, hsrc, honly, hsub⟩ := hchar
  refine ⟨e1, hfind1, ?_, ?_⟩
  · intro exp2 now2 fresh2 h2
    unfold TokenStore.issue_token TokenStore.get_valid_token
    rw [hfind1]
    dsimp only
    rw [if_pos h2]
  · intro exp2 now2 fresh2 now3 t2 rows2 hissue2 hexp hfresh2 hsep
    unfold TokenStore.issue_token TokenStore.get_valid_token at hissue2
    rw [hfind1] at hissue2
    dsimp only at hissue2
    rw [if_neg (by omega)] at hissue2
    obtain ⟨ht2, hrows2⟩ := Prod.mk.injEq .. ▸ hissue2
    subst ht2
    have ht2ne : fresh2 ≠ t1 := by
      rcases hsrc with h | h
      · exact fun he => hfresh2 (he ▸ h)
      · exact fun he => hsep (he.trans h)
    refine ⟨rfl, ht2ne, ?_⟩
    apply resolve_of_not_mem
    intro q hq
    rw [← hrows2] at hq
    rcases List.mem_append.mp hq with hq | hq
    · intro hqt
      have hne := of_decide_eq_true (List.mem_filter.mp hq).2
      exact hne (honly q (List.mem_filter.mp hq).1 hqt)
    · simp at hq
      rw [hq]
      exact ht2ne

/-- Witness for C4: token "A" for job "j" expiring at 10 is returned again at
time 7; at time 11 a fresh "C" is minted and the old "A" no longer resolves. -/
theorem C4_token_idempotent_expiry_witness :
    TokenStore.issue_token [TokenRow.mk "A" "j" 10] "j" 30 7 "C" =
      ("A", [TokenRow.mk "A" "j" 10]) ∧
    (TokenStore.issue_token [TokenRow.mk "A" "j" 10] "j" 40 11 "C").1 = "C" ∧
    (TokenStore.resolve
        (TokenStore.issue_token [TokenRow.mk "A" "j" 10] "j" 40 11 "C").2
        "A" 12).1 = none := by
  obtain ⟨e1, hfind, hidem, hexp⟩ :=
    C4_token_idempotent_expiry [TokenRow.mk "A" "j" 10] "j" 20 5 "B" "A"
      [TokenRow.mk "A" "j" 10] rfl (by decide) (by decide)
  have he1 : e1 = 10 := by
    have h0 : [TokenRow.mk "A" "j" 10].find? (fun r => decide (r.job_id = "j")) =
        some (TokenRow.mk "A" "j" 10) := rfl
    have h1 := hfind.symm.trans h0
    simpa using h1
  subst he1
  refine ⟨hidem 30 7 "C" (by omega), ?_⟩
  obtain ⟨ht2, -, hres⟩ := hexp 40 11 "C" 12
    (TokenStore.issue_token [TokenRow.mk "A" "j" 10] "j" 40 11 "C").1
    (TokenStore.issue_token [TokenRow.mk "A" "j" 10] "j" 40 11 "C").2
    rfl (by omega) (by decide) (by decide)
  exact ⟨ht2, by rw [hres]⟩

/-! ### C6: admission control in the create-job route -/

theorem dictGet_eq_none_keys {β : Type} (l : List (String × β)) (k : String)
    (h : dictGet l k = none) : ∀ p ∈ l, p.1 ≠ k := by
  induction l with
  | nil => simp
  | cons p rest ih =>
    by_cases hp : p.1 = k
    · simp [dictGet, hp] at h
    · intro q hq
      rcases List.mem_cons.mp hq with hq | hq
      · rw [hq]; exact hp
      · simp only [dictGet, hp, if_neg] at h
        exact ih h q hq

theorem dictUpdate_eq_self {β : Type} (l : List (String × β)) (k : String)
    (f : β → β) (h : ∀ p ∈ l, p.1 ≠ k) : dictUpdate l k f = l := by
  induction l with
  | nil => rfl
  | cons p rest ih =>
    have hp := h p (List.mem_cons_self p rest)
    simp only [dictUpdate, List.map_cons, if_neg hp]
    have := ih (fun q hq => h q (List.mem_cons_of_mem p hq))
    simpa [dictUpdate] using this

/-- Store used to refute the unconditional conflict clause of C6: session "s"
already owns the queued job "a" while the queue limit is 1, so its next create
is rejected for capacity, not conflict. -/
def exStC6 : StoreState :=
  { jobs := [("a", { job_id := "a", theme_url := "u", session_id := "s",
                     status := .queued, created_at := 0, updated_at := 0 })],
    cancel_events := [("a", false)],
    tokens := [],
    log_limit := 1000,
    ttl_seconds := 3600 }

/-- C6 counterexample: with the queue full (limit 1, one queued job) and the
same session owning that active job, `create_rip_job` rejects with the
capacity error, not the conflict error the claim demands for any session
already owning an active job — the capacity check runs first. -/
theorem C6_counterexample :
    (exStC6.active_job_for_session "s").isSome = true ∧
    create_rip_job exStC6 1 "u2" "s" "b" 1 =
      some (Except.error CreateError.tooManyJobs) ∧
    CreateError.tooManyJobs ≠ CreateError.activeJobExists := by
  refine ⟨by decide, by rfl, by decide⟩

/-- C6 (amended): the capacity check runs first — `activeCount ≥ queueLimit`
rejects with the capacity error and no state change; otherwise a session
already owning an active job is rejected with the conflict error and no state
change; an admitted creation (fresh job id) raises `activeCount` by exactly
one, so it never exceeds `queueLimit`; and admission depends only on the store
state and `queue_limit` — the worker pool does not appear. -/
theorem C6_admission (st : StoreState) (queue_limit : Nat)
    (theme_url session_id job_id : String) (now : Nat)
    (hfresh : dictGet st.jobs job_id = none) :
    (queue_limit ≤ st.active_count →
      create_rip_job st queue_limit theme_url session_id job_id now =
        some (Except.error CreateError.tooManyJobs)) ∧
    (st.active_count < queue_limit →
      (st.active_job_for_session session_id).isSome →
      create_rip_job st queue_limit theme_url session_id job_id now =
        some (Except.error CreateError.activeJobExists)) ∧
    (∀ st2 jid, create_rip_job st queue_limit theme_url session_id job_id now =
        some (Except.ok (st2, jid)) →
      st2.active_count = st.active_count + 1 ∧ st2.active_count ≤ queue_limit) := by
  refine ⟨?_, ?_, ?_⟩
  · intro hcap
    unfold create_rip_job
    rw [if_pos hcap]
  · intro hlt hown
    unfold create_rip_job
    rw [if_neg (by omega), if_pos hown]
  · intro st2 jid h
    unfold create_rip_job at h
    by_cases hcap : queue_limit ≤ st.active_count
    · rw [if_pos hcap] at h
      simp at h
    · rw [if_neg hcap] at h
      by_cases hown : (st.active_job_for_session session_id).isSome
      · rw [if_pos hown] at h
        simp at h
      · rw [if_neg hown] at h
        have hins : dictInsert st.jobs job_id
            (Job.mk job_id theme_url session_id .queued now now [] 0
              none none none none none false) =
            st.jobs ++ [(job_id, Job.mk job_id theme_url session_id .queued now now
              [] 0 none none none none none false)] := by
          unfold dictInsert
          rw [hfresh]
          rfl
        set qjob : Job := Job.mk job_id theme_url session_id .queued now now [] 0
          none none none none none false with hqjob
        have hget1 : dictGet (st.jobs ++ [(job_id, qjob)]) job_id = some qjob :=
          dictGet_append_right st.jobs job_id qjob hfresh
        have happ : ((st.create theme_url session_id job_id now).1.append_log
            job_id now "info" "Job queued") = some
            (StoreState.mk
              (dictUpdate (st.jobs ++ [(job_id, qjob)]) job_id
                (fun _ => (append_log_job st.log_limit qjob now "info"
                  "Job queued").1))
              (dictInsert st.cancel_events job_id false)
              st.tokens st.log_limit st.ttl_seconds,
             (append_log_job st.log_limit qjob now "info" "Job queued").2) := by
          unfold StoreState.append_log StoreState.create
          dsimp only
          rw [hins, hget1]
        dsimp only at h
        rw [happ] at h
        simp at h
        obtain ⟨hst2, -⟩ := h
        have hjobs2 : dictUpdate (st.jobs ++ [(job_id, qjob)]) job_id
            (fun _ => (append_log_job st.log_limit qjob now "info" "Job queued").1) =
            st.jobs ++ [(job_id, (append_log_job st.log_limit qjob now "info"
              "Job queued").1)] := by
          unfold dictUpdate
          rw [List.map_append]
          have h1 := dictUpdate_eq_self st.jobs job_id
            (fun _ => (append_log_job st.log_limit qjob now "info" "Job queued").1)
            (dictGet_eq_none_keys st.jobs job_id hfresh)
          unfold dictUpdate at h1
          rw [h1]
          simp
        have hcount : st2.active_count = st.active_count + 1 := by
          rw [← hst2]
          unfold StoreState.active_count
          dsimp only
          rw [hjobs2, List.filter_append, List.length_append]
          rfl
        exact ⟨hcount, by omega⟩

/-- Witness for C6 (amended) on concrete stores. -/
theorem C6_admission_witness :
    create_rip_job exStC6 1 "u2" "s2" "b" 1 =
      some (Except.error CreateError.tooManyJobs) ∧
    create_rip_job exStC6 2 "u2" "s" "b" 1 =
      some (Except.error CreateError.activeJobExists) ∧
    ∀ st2 jid, create_rip_job exStC6 2 "u2" "s2" "b" 1 =
        some (Except.ok (st2, jid)) → st2.active_count ≤ 2 := by
  obtain ⟨hcap, -, -⟩ := C6_admission exStC6 1 "u2" "s2" "b" 1 (by decide)
  obtain ⟨-, hconf, -⟩ := C6_admission exStC6 2 "u2" "s" "b" 1 (by decide)
  obtain ⟨-, -, hok⟩ := C6_admission exStC6 2 "u2" "s2" "b" 1 (by decide)
  exact ⟨hcap (by decide), hconf (by decide) (by decide),
    fun st2 jid h => (hok st2 jid h).2⟩

/-! ### C7: cancelling a queued job -/

theorem dictGet_filter_ne {β : Type} (l : List (String × β)) (k : String) :
    dictGet (l.filter (fun p => decide (p.1 ≠ k))) k = none := by
  induction l with
  | nil => rfl
  | cons p rest ih =>
    by_cases hp : p.1 = k
    · simpa [List.filter_cons, hp] using ih
    · simpa [List.filter_cons, hp, dictGet] using ih

/-- The runner's `JobCancelled` handler removes the job: after it runs,
`snapshot` no longer finds the job and its cancel event is gone. -/
theorem runner_cancel_handler_removes (s : StoreState) (job_id : String)
    (now : Nat) (job : Job) (hj : dictGet s.jobs job_id = some job) :
    ∃ st2, runner_cancel_handler s job_id now = some st2 ∧
      st2.snapshot job_id = none ∧ dictGet st2.cancel_events job_id = none := by
  unfold runner_cancel_handler StoreState.append_log
  rw [hj]
  dsimp only [Option.bind]
  unfold StoreState.mark_cancelled
  rw [dictGet_update_of_get s.jobs job_id job hj
    (fun _ => (append_log_job s.log_limit job now "info" "Job cancelled by user").1)]
  dsimp only
  refine ⟨_, rfl, ?_, ?_⟩
  · exact dictGet_filter_ne _ job_id
  · exact dictGet_filter_ne _ job_id

/-- C7: `request_cancel` on an existing queued job (with its event present)
returns true, sets the job's cancellation flag, sets (wakes) the per-job
event, and transitions the job directly to Cancelled; once the dispatched
runner observes the flag — `is_cancelled` is now true, so its first checkpoint
raises `JobCancelled` — the handler removes the job, so it vanishes from
subsequent lookups. -/
theorem C7_request_cancel_queued (st : StoreState) (job_id : String)
    (now now2 : Nat) (job : Job) (hj : dictGet st.jobs job_id = some job)
    (ev : Bool) (hev : dictGet st.cancel_events job_id = some ev)
    (hq : job.status = .queued) :
    ∃ st', st.request_cancel job_id now = (true, st') ∧
      (∃ j', st'.snapshot job_id = some j' ∧ j'.status = .cancelled ∧
        j'.cancel_requested = true) ∧
      dictGet st'.cancel_events job_id = some true ∧
      st'.is_cancelled job_id = true ∧
      ∃ st2, runner_cancel_handler st' job_id now2 = some st2 ∧
        st2.snapshot job_id = none := by
  unfold StoreState.request_cancel
  rw [hj, hev]
  have hsnap := dictGet_update_of_get st.jobs job_id job hj (fun j =>
    if j.status = .queued then
      { j with cancel_requested := true, status := .cancelled, updated_at := now }
    else { j with cancel_requested := true })
  rw [if_pos hq] at hsnap
  have hevents := dictGet_update_of_get st.cancel_events job_id ev hev
    (fun _ => true)
  set stc : StoreState :=
    { st with
        jobs := dictUpdate st.jobs job_id (fun j =>
          if j.status = .queued then
            { j with cancel_requested := true, status := .cancelled,
                     updated_at := now }
          else { j with cancel_requested := true }),
        cancel_events := dictUpdate st.cancel_events job_id (fun _ => true) }
    with hstc
  refine ⟨stc, rfl, ⟨_, hsnap, rfl, rfl⟩, hevents, ?_, ?_⟩
  · unfold StoreState.is_cancelled
    dsimp only
    rw [show dictGet stc.cancel_events job_id = some true from hevents]
    rfl
  · obtain ⟨st2, hrun, hgone, -⟩ :=
      runner_cancel_handler_removes stc job_id now2 _ hsnap
    exact ⟨st2, hrun, hgone⟩

/-- Store used by the C7 witness. -/
def exStC7 : StoreState :=
  { jobs := [("j", { job_id := "j", theme_url := "u", session_id := "s",
                     status := .queued, created_at := 0, updated_at := 0 })],
    cancel_events := [("j", false)],
    tokens := [],
    log_limit := 1000,
    ttl_seconds := 3600 }

/-- Witness for C7 on a concrete store. -/
theorem C7_request_cancel_queued_witness :
    ∃ st', exStC7.request_cancel "j" 1 = (true, st') ∧
      (st'.snapshot "j").map Job.status = some JobStatus.cancelled ∧
      ∃ st2, runner_cancel_handler st' "j" 2 = some st2 ∧
        st2.snapshot "j" = none := by
  obtain ⟨st', hrc, ⟨j', hj', hstat, -⟩, -, -, st2, hrun, hgone⟩ :=
    C7_request_cancel_queued exStC7 "j" 1 2
      { job_id := "j", theme_url := "u", session_id := "s",
        status := .queued, created_at := 0, updated_at := 0 } rfl false rfl rfl
  refine ⟨st', hrc, ?_, st2, hrun, hgone⟩
  rw [hj']
  simp [hstat]

/-! ### C8: mirroring-stage exit-code handling -/

/-- The missing-binary message can never coincide with an exit-code message. -/
theorem wget_messages_distinct (r : Int) :
    "wget is required but not installed or not in PATH" ≠
      "wget exited with code " ++ toString r := by
  intro h
  have h5 := congrArg (fun s => s.data[5]?) h
  simp only [String.data_append] at h5
  rw [List.getElem?_append_left (by decide)] at h5
  exact absurd h5 (by decide)

/-- C8: with the tool present and no cancellation, exit code 8 (wget's
partial-failure code) appends a warning entry and the stage succeeds — so a
subsequent `mark_succeeded` with the size floor met yields a Succeeded job;
any other non-zero exit code raises a `RuntimeError` naming the code; a
missing wget binary raises the distinct clearly-labelled `RuntimeError`. -/
theorem C8_mirror_exit_codes (dest_dir : String) (lines : List String)
    (retcode : Int) :
    ((mirror_site dest_dir true false lines 8).2 = Except.ok () ∧
      ("warn", "wget completed with HTTP errors (some assets may be missing)") ∈
        (mirror_site dest_dir true false lines 8).1) ∧
    (retcode ≠ 8 → retcode ≠ 0 →
      (mirror_site dest_dir true false lines retcode).2 =
        Except.error (StageError.runtimeError
          ("wget exited with code " ++ toString retcode))) ∧
    (∀ cancelled, (mirror_site dest_dir false cancelled lines retcode).2 =
      Except.error (StageError.runtimeError
        "wget is required but not installed or not in PATH")) ∧
    "wget is required but not installed or not in PATH" ≠
      "wget exited with code " ++ toString retcode ∧
    (∀ st job_id path s now fresh (job : Job),
      dictGet (StoreState.jobs st) job_id = some job → 100 * 1024 ≤ s →
      ∃ st', st.mark_succeeded job_id path (some s) now fresh = some st' ∧
        ∃ j', st'.snapshot job_id = some j' ∧ j'.status = .succeeded) := by
  refine ⟨⟨?_, ?_⟩, ?_, ?_, wget_messages_distinct retcode, ?_⟩
  · unfold mirror_site
    rfl
  · unfold mirror_site
    simp
  · intro h8 h0
    unfold mirror_site
    rw [if_neg (by simp), if_neg (by simp), if_neg h8, if_pos h0]
  · intro cancelled
    unfold mirror_site
    rfl
  · intro st job_id path s now fresh job hj hs
    unfold StoreState.mark_succeeded
    dsimp only
    rw [if_neg (by omega), hj]
    have hsnap := dictGet_update_of_get st.jobs job_id job hj (fun j =>
      { j with
          status := .succeeded, updated_at := now, artifact_path := some path,
          download_size := some s, expires_at := some (now + st.ttl_seconds),
          download_token := some (TokenStore.issue_token st.tokens job_id
            (now + st.ttl_seconds) now fresh).1 })
    exact ⟨_, rfl, _, hsnap, rfl⟩

/-- Witness for C8: a concrete transcript with exit code 8 succeeds with the
warning present, exit code 4 is a hard failure naming the code, and a missing
binary yields its own message. -/
theorem C8_mirror_exit_codes_witness :
    (mirror_site "/d" true false ["--a--  https://h/x.css"] 8).2 = Except.ok () ∧
    (mirror_site "/d" true false ["--a--  https://h/x.css"] 4).2 =
      Except.error (StageError.runtimeError ("wget exited with code " ++
        toString (4 : Int))) ∧
    (mirror_site "/d" false false ["--a--  https://h/x.css"] 0).2 =
      Except.error (StageError.runtimeError
        "wget is required but not installed or not in PATH") := by
  obtain ⟨⟨hok, -⟩, -, -, -, -⟩ :=
    C8_mirror_exit_codes "/d" ["--a--  https://h/x.css"] 4
  obtain ⟨-, hhard, hmissing, -, -⟩ :=
    C8_mirror_exit_codes "/d" ["--a--  https://h/x.css"] 4
  exact ⟨hok, hhard (by decide) (by decide), hmissing false⟩

/-! ### C9: wget line classification rules -/

/-- C9: for every raw output line and remembered URL, the classifier emits at
most one log entry and follows the rules in priority order — empty lines drop;
error-marker lines are logged verbatim at error severity; well-formed
fetch-start (`--`) lines become `Fetching <resource>` info entries and update
the remembered URL; `Saving to:` lines become `Saved <resource>` info entries
using the remembered URL (dropped if none is remembered); `not retrieving`
lines are logged verbatim as warnings; every other line — including malformed
`--` lines — produces no entry and leaves the remembered URL unchanged. -/
theorem C9_simplify_rules (raw_line : String) (last_url : Option String) :
    (simplify_wget_line raw_line last_url).1.length ≤ 1 ∧
    (pyStrip raw_line = "" →
      simplify_wget_line raw_line last_url = ([], last_url)) ∧
    (pyStrip raw_line ≠ "" →
      pyStartsWith (pyUpper (pyStrip raw_line)) "ERROR" = true →
      simplify_wget_line raw_line last_url =
        ([("error", pyStrip raw_line)], last_url)) ∧
    (pyStrip raw_line ≠ "" →
      pyStartsWith (pyUpper (pyStrip raw_line)) "ERROR" = false →
      pyStartsWith (pyStrip raw_line) "--" = true →
      3 ≤ (pySplit (pyStrip raw_line) "--" 2).length →
      pyStrip ((pySplit (pyStrip raw_line) "--" 2).getD 2 "") ≠ "" →
      simplify_wget_line raw_line last_url =
        ([("info", "Fetching " ++ resource_label
            (pyStrip ((pySplit (pyStrip raw_line) "--" 2).getD 2 "")))],
         some (pyStrip ((pySplit (pyStrip raw_line) "--" 2).getD 2 "")))) ∧
    (pyStrip raw_line ≠ "" →
      pyStartsWith (pyUpper (pyStrip raw_line)) "ERROR" = false →
      pyStartsWith (pyStrip raw_line) "--" = false →
      pyStartsWith (pyLower (pyStrip raw_line)) "saving to:" = true →
      (∀ u, last_url = some u →
        simplify_wget_line raw_line last_url =
          ([("info", "Saved " ++ resource_label u)], some u)) ∧
      (last_url = none →
        simplify_wget_line raw_line last_url = ([], none))) ∧
    (pyStrip raw_line ≠ "" →
      pyStartsWith (pyUpper (pyStrip raw_line)) "ERROR" = false →
      pyStartsWith (pyStrip raw_line) "--" = false →
      pyStartsWith (pyLower (pyStrip raw_line)) "saving to:" = false →
      pyContains (pyLower (pyStrip raw_line)) "not retrieving" = true →
      simplify_wget_line raw_line last_url =
        ([("warn", pyStrip raw_line)], last_url)) ∧
    (pyStrip raw_line ≠ "" →
      pyStartsWith (pyUpper (pyStrip raw_line)) "ERROR" = false →
      (pyStartsWith (pyStrip raw_line) "--" = false ∨
        (pySplit (pyStrip raw_line) "--" 2).length < 3 ∨
        pyStrip ((pySplit (pyStrip raw_line) "--" 2).getD 2 "") = "") →
      pyStartsWith (pyLower (pyStrip raw_line)) "saving to:" = false →
      pyContains (pyLower (pyStrip raw_line)) "not retrieving" = false →
      simplify_wget_line raw_line last_url = ([], last_url)) := by
  refine ⟨?_, ?_, ?_, ?_, ?_, ?_, ?_⟩
  · unfold simplify_wget_line
    dsimp only
    split
    · simp
    · split
      · simp
      · split
        · split
          · split
            · simp
            · simp
          · simp
        · split
          · split
            · simp
            · simp
          · split
            · simp
            · simp
  · intro h
    unfold simplify_wget_line
    dsimp only
    rw [if_pos h]
  · intro h1 h2
    unfold simplify_wget_line
    dsimp only
    rw [if_neg h1, if_pos h2]
  · intro h1 h2 h3 h4 h5
    unfold simplify_wget_line
    dsimp only
    rw [if_neg h1, if_neg (by simp [h2]), if_pos h3, if_pos h4, if_pos h5]
  · intro h1 h2 h3 h4
    constructor
    · intro u hu
      unfold simplify_wget_line
      dsimp only
      rw [if_neg h1, if_neg (by simp [h2]), if_neg (by simp [h3]), if_pos h4, hu]
    · intro hn
      unfold simplify_wget_line
      dsimp only
      rw [if_neg h1, if_neg (by simp [h2]), if_neg (by simp [h3]), if_pos h4, hn]
  · intro h1 h2 h3 h4 h5
    unfold simplify_wget_line
    dsimp only
    rw [if_neg h1, if_neg (by simp [h2]), if_neg (by simp [h3]),
      if_neg (by simp [h4]), if_pos h5]
  · intro h1 h2 h3 h4 h5
    unfold simplify_wget_line
    dsimp only
    rcases h3 with h3 | h3 | h3
    · rw [if_neg h1, if_neg (by simp [h2]), if_neg (by simp [h3]),
        if_neg (by simp [h4]), if_neg (by simp [h5])]
    · by_cases hdash : pyStartsWith (pyStrip raw_line) "--" = true
      · rw [if_neg h1, if_neg (by simp [h2]), if_pos hdash, if_neg (by omega)]
      · rw [if_neg h1, if_neg (by simp [h2]), if_neg (by simpa using hdash),
          if_neg (by simp [h4]), if_neg (by simp [h5])]
    · by_cases hdash : pyStartsWith (pyStrip raw_line) "--" = true
      · by_cases hlen : 3 ≤ (pySplit (pyStrip raw_line) "--" 2).length
        · rw [if_neg h1, if_neg (by simp [h2]), if_pos hdash, if_pos hlen,
            if_neg (by simp only [List.getD, List.get?_eq_getElem?] at h3
                       simp [h3])]
        · rw [if_neg h1, if_neg (by simp [h2]), if_pos hdash, if_neg hlen]
      · rw [if_neg h1, if_neg (by simp [h2]), if_neg (by simpa using hdash),
          if_neg (by simp [h4]), if_neg (by simp [h5])]

/-- Witness for C9: a concrete error line, fetch line and saved line follow
the stated rules. -/
theorem C9_simplify_rules_witness :
    simplify_wget_line "ERROR 404: Not Found." (some "u") =
      ([("error", "ERROR 404: Not Found.")], some "u") ∧
    simplify_wget_line "--2025-10-12 12:00:00--  https://h/a/b.css" none =
      ([("info", "Fetching " ++ resource_label "https://h/a/b.css")],
        some "https://h/a/b.css") ∧
    simplify_wget_line "random progress noise" (some "u") = ([], some "u") := by
  refine ⟨?_, ?_, ?_⟩
  · exact (C9_simplify_rules "ERROR 404: Not Found." (some "u")).2.2.1
      (by decide) (by decide)
  · have h := (C9_simplify_rules "--2025-10-12 12:00:00--  https://h/a/b.css"
      none).2.2.2.1 (by decide) (by decide) (by decide) (by decide) (by decide)
    rw [h]
    rfl
  · exact (C9_simplify_rules "random progress noise"
      (some "u")).2.2.2.2.2.2 (by decide) (by decide) (Or.inl (by decide))
      (by decide) (by decide)

end ThemeRipper
